import Mathlib

/-!
Shallow embedding of the lzma-rs decompression front end
(src/src/decode/lzma_params.rs and src/src/lib.rs), together with
theorems checking the specification's statements about it.

Bytes are modelled as natural numbers; the byte source is a list of
events: either a byte, or an input/output failure raised by the
underlying reader.  End of input is reached when the list is exhausted.
Reading mirrors the semantics of Rust's `byteorder` helpers over a
`BufRead`: a multi-byte read fails with an unexpected-end-of-file error
when the source runs out, and propagates any other failure.
-/

namespace LzmaRs

/-- Kind of a low-level input/output error: either the reader reached end
of input in the middle of a read (Rust's UnexpectedEof), or some other
failure of the underlying byte source. -/
inductive IoErrorKind where
  | unexpectedEof : IoErrorKind
  | other : IoErrorKind
deriving DecidableEq

/-- Modelled from the spec (section 7, error kinds): the crate error enum,
whose declaration (module error) is not among the sources.  Variants:
HeaderTooShort (input ended during header read, wrapping the underlying
input/output error), LzmaError and XzError with diagnostic text, and
IoError propagated from the source or sink. -/
inductive Error where
  | HeaderTooShort (e : IoErrorKind) : Error
  | LzmaError (msg : String) : Error
  | XzError (msg : String) : Error
  | IoError (e : IoErrorKind) : Error
deriving DecidableEq

/-- Modelled from the spec (section 6): how the unpacked size is
determined — read from header, read from header but override with the
caller's value, or caller-supplied (module decode::options is not among
the sources; the three constructors are the ones matched on by
read_header in src/src/decode/lzma_params.rs). -/
inductive UnpackedSize where
  | ReadFromHeader : UnpackedSize
  | ReadHeaderButUseProvided (x : Option Nat) : UnpackedSize
  | UseProvided (x : Option Nat) : UnpackedSize
deriving DecidableEq

/-- Modelled from the spec (section 6): the decompression options record
with fields unpacked_size, memlimit and allow_incomplete (module
decode::options is not among the sources). -/
structure Options where
  unpacked_size : UnpackedSize
  memlimit : Option Nat
  allow_incomplete : Bool
deriving DecidableEq

/-- Modelled from the spec: the default options record — unpacked size
read from the header, no memory limit, incomplete input not allowed. -/
def Options.default : Options :=
  { unpacked_size := UnpackedSize.ReadFromHeader
  , memlimit := none
  , allow_incomplete := false }

/-- Parameters that describe how the Lzma file is structured
(struct LzmaParams from src/src/decode/lzma_params.rs). -/
structure LzmaParams where
  lc : Nat
  lp : Nat
  pb : Nat
  dict_size : Nat
  unpacked_size : Option Nat
deriving DecidableEq

/-- One event produced by the byte source: a byte (0..255) or a failure
of the underlying reader. -/
inductive SrcEvent where
  | byte (b : Nat) : SrcEvent
  | ioErr : SrcEvent
deriving DecidableEq

/-- The byte source: a finite list of events; end of input when empty. -/
abbrev Source := List SrcEvent

/-- Read one byte (byteorder's read_u8 over a BufRead): end of input
gives an unexpected-end-of-file error, a reader failure propagates. -/
def read_u8 : Source → Except IoErrorKind (Nat × Source)
  | [] => Except.error IoErrorKind.unexpectedEof
  | SrcEvent.byte b :: rest => Except.ok (b, rest)
  | SrcEvent.ioErr :: _ => Except.error IoErrorKind.other

/-- Read exactly n bytes (the read_exact semantics underlying
byteorder's multi-byte reads). -/
def read_bytes : Nat → Source → Except IoErrorKind (List Nat × Source)
  | 0, s => Except.ok ([], s)
  | _ + 1, [] => Except.error IoErrorKind.unexpectedEof
  | _ + 1, SrcEvent.ioErr :: _ => Except.error IoErrorKind.other
  | n + 1, SrcEvent.byte b :: rest =>
    match read_bytes n rest with
    | Except.ok (bs, rest') => Except.ok (b :: bs, rest')
    | Except.error e => Except.error e

/-- Value of a byte list interpreted in little-endian order. -/
def leVal : List Nat → Nat
  | [] => 0
  | b :: bs => b + 256 * leVal bs

/-- Read a 32-bit little-endian value (byteorder's
read_u32::LittleEndian). -/
def read_u32_le (s : Source) : Except IoErrorKind (Nat × Source) :=
  match read_bytes 4 s with
  | Except.ok (bs, rest) => Except.ok (leVal bs, rest)
  | Except.error e => Except.error e

/-- Read a 64-bit little-endian value (byteorder's
read_u64::LittleEndian). -/
def read_u64_le (s : Source) : Except IoErrorKind (Nat × Source) :=
  match read_bytes 8 s with
  | Except.ok (bs, rest) => Except.ok (leVal bs, rest)
  | Except.error e => Except.error e

/-- Read header of a lzma file (LzmaParams::read_header from
src/src/decode/lzma_params.rs).  Reads the properties byte, the 32-bit
little-endian dictionary size (clamped up to 0x1000), and — depending on
options.unpacked_size — the 64-bit little-endian unpacked size.  Every
failed read is wrapped in Error.HeaderTooShort, mirroring the source's
map_err calls.  Returns the parsed parameters and the remaining input. -/
def read_header (input : Source) (options : Options) :
    Except Error (LzmaParams × Source) :=
  match read_u8 input with
  | Except.error e => Except.error (Error.HeaderTooShort e)
  | Except.ok (props, input1) =>
    if 225 ≤ props then
      Except.error (Error.LzmaError
        ("LZMA header invalid properties: " ++ toString props ++ " must be < 225"))
    else
      let lc := props % 9
      let lp := props / 9 % 5
      let pb := props / 9 / 5
      match read_u32_le input1 with
      | Except.error e => Except.error (Error.HeaderTooShort e)
      | Except.ok (dict_size_provided, input2) =>
        let dict_size := if dict_size_provided < 0x1000 then 0x1000 else dict_size_provided
        match options.unpacked_size with
        | UnpackedSize.ReadFromHeader =>
          match read_u64_le input2 with
          | Except.error e => Except.error (Error.HeaderTooShort e)
          | Except.ok (unpacked_size_provided, input3) =>
            let unpacked_size :=
              if unpacked_size_provided = 0xFFFFFFFFFFFFFFFF then none
              else some unpacked_size_provided
            Except.ok ({ lc, lp, pb, dict_size, unpacked_size }, input3)
        | UnpackedSize.ReadHeaderButUseProvided x =>
          match read_u64_le input2 with
          | Except.error e => Except.error (Error.HeaderTooShort e)
          | Except.ok (_, input3) =>
            Except.ok ({ lc, lp, pb, dict_size, unpacked_size := x }, input3)
        | UnpackedSize.UseProvided x =>
          Except.ok ({ lc, lp, pb, dict_size, unpacked_size := x }, input2)

/-- Modelled from the spec (sections 3 and 4.1): construction of the
range decoder (decode_internal::rangecoder::RangeDecoder::new, not among
the sources).  Five bytes are read from the input: the first must be
zero, the remaining four become the initial code; short input fails. -/
def rangeDecoderNew (input : Source) : Except String ((Nat × Nat) × Source) :=
  match read_u8 input with
  | Except.error _ => Except.error "unexpected end of stream"
  | Except.ok (b, rest) =>
    if b ≠ 0 then Except.error "corrupted range coder init"
    else
      match read_bytes 4 rest with
      | Except.error _ => Except.error "unexpected end of stream"
      | Except.ok (bs, rest') =>
        Except.ok ((0xFFFFFFFF, bs.foldl (fun acc x => acc * 256 + x) 0), rest')

/-- Modelled from the spec (section 4.5): construction of the circular
(memory-limited) output buffer decoder
(decode_internal::lzma::new_circular_with_memlimit, not among the
sources).  The circular variant rejects construction when dict_size
exceeds the memory limit, with the memory-limit error. -/
def new_circular_with_memlimit (params : LzmaParams) (memlimit : Nat) :
    Except Error Unit :=
  if memlimit < params.dict_size then
    Except.error (Error.LzmaError "memory limit exceeded")
  else Except.ok ()

/-- Modelled from the spec (section 4.5): construction of the circular
output buffer decoder without a caller-imposed memory limit
(decode_internal::lzma::new_circular, not among the sources); it never
fails. -/
def new_circular (_params : LzmaParams) : Except Error Unit := Except.ok ()

/-- Modelled from the spec (sections 4.2 to 4.4): the LZMA decoder core
(decode_internal::lzma, the process loop and the output buffer, not
among the sources), abstracted as a function from the parameters, the
initial range-coder state and the remaining input to: the bytes flushed
to the sink during processing, the final status (on success carrying the
bytes flushed by finish), and the remaining input. -/
def Core : Type :=
  LzmaParams → (Nat × Nat) → Source → List Nat × Except Error (List Nat) × Source

/-- Running the constructed decoder: range-coder construction (whose
failure lib.rs wraps as an LzmaError with the stream-too-short text),
then the core, with the sink receiving only appended bytes.  This is the
part of lzma_decompress_with_options_with_lzma_params (src/src/lib.rs)
after the output-buffer construction. -/
def runDecoder (core : Core) (params : LzmaParams) (input : Source)
    (sink : List Nat) : Except Error Unit × List Nat × Source :=
  match rangeDecoderNew input with
  | Except.error msg =>
    (Except.error (Error.LzmaError ("LZMA stream too short: " ++ msg)), sink, input)
  | Except.ok (rc, rest) =>
    match core params rc rest with
    | (flushed, Except.ok finalBytes, rest') =>
      (Except.ok (), sink ++ flushed ++ finalBytes, rest')
    | (flushed, Except.error e, rest') =>
      (Except.error e, sink ++ flushed, rest')

/-- Decompress LZMA data with the provided options and params
(lzma_decompress_with_options_with_lzma_params from src/src/lib.rs):
construct the circular decoder — against options.memlimit when present —
then the range coder, then run the core; the sink is append-only. -/
def lzma_decompress_with_options_with_lzma_params (core : Core)
    (options : Options) (params : LzmaParams) (input : Source)
    (sink : List Nat) : Except Error Unit × List Nat × Source :=
  match (match options.memlimit with
         | some m => new_circular_with_memlimit params m
         | none => new_circular params) with
  | Except.error e => (Except.error e, sink, input)
  | Except.ok _ => runDecoder core params input sink

/-- Decompress LZMA data with the provided options
(lzma_decompress_with_options from src/src/lib.rs): parse the header,
then decode with the resulting parameters. -/
def lzma_decompress_with_options (core : Core) (options : Options)
    (input : Source) (sink : List Nat) :
    Except Error Unit × List Nat × Source :=
  match read_header input options with
  | Except.error e => (Except.error e, sink, input)
  | Except.ok (params, rest) =>
    lzma_decompress_with_options_with_lzma_params core options params rest sink

/-- Decompress LZMA data with default options (lzma_decompress from
src/src/lib.rs). -/
def lzma_decompress (core : Core) (input : Source) (sink : List Nat) :
    Except Error Unit × List Nat × Source :=
  lzma_decompress_with_options core Options.default input sink

/-- Modelled from the spec (section 4.6): the LZMA2 stream decoder
(decode_internal::lzma2::decode_stream, not among the sources),
abstracted as a function from the input to the bytes flushed to the
sink, the status, and the remaining input. -/
def Lzma2Core : Type := Source → List Nat × Except Error Unit × Source

/-- Decompress LZMA2 data (lzma2_decompress from src/src/lib.rs): it
takes only an input and an output — no options record — and delegates to
the stream decoder. -/
def lzma2_decompress (core : Lzma2Core) (input : Source) (sink : List Nat) :
    Except Error Unit × List Nat × Source :=
  match core input with
  | (flushed, st, rest) => (st, sink ++ flushed, rest)

/-- Modelled from the spec (section 4.7): the XZ stream decoder
(decode_internal::xz::decode_stream, not among the sources), abstracted
the same way as the LZMA2 one. -/
def XzCore : Type := Source → List Nat × Except Error Unit × Source

/-- Decompress XZ data (xz_decompress from src/src/lib.rs): it takes
only an input and an output — no options record — and delegates to the
stream decoder. -/
def xz_decompress (core : XzCore) (input : Source) (sink : List Nat) :
    Except Error Unit × List Nat × Source :=
  match core input with
  | (flushed, st, rest) => (st, sink ++ flushed, rest)

/-- A family of results indexed by an options record is sensitive to the
options when two options values give different results. -/
def OptionsSensitive {α : Type} (f : Options → α) : Prop :=
  ∃ o1 o2 : Options, f o1 ≠ f o2

/-- A concrete 13-byte raw-LZMA header: properties byte 0x5D, dictionary
size 0x00100000, unpacked size all-ones (end-of-stream marker
mandatory). -/
def exHeaderA : Source :=
  [SrcEvent.byte 93, SrcEvent.byte 0, SrcEvent.byte 0, SrcEvent.byte 16,
   SrcEvent.byte 0, SrcEvent.byte 255, SrcEvent.byte 255, SrcEvent.byte 255,
   SrcEvent.byte 255, SrcEvent.byte 255, SrcEvent.byte 255, SrcEvent.byte 255,
   SrcEvent.byte 255]

/-- The parameters parsed from exHeaderA with the default options. -/
def paramsA : LzmaParams :=
  { lc := 3, lp := 0, pb := 2, dict_size := 1048576, unpacked_size := none }

/-- The parameters parsed from exHeaderA when the caller overrides the
unpacked size with 6. -/
def paramsB : LzmaParams :=
  { lc := 3, lp := 0, pb := 2, dict_size := 1048576, unpacked_size := some 6 }

/-- A concrete 5-byte raw-LZMA header prefix (no unpacked-size field):
properties byte 0x5D and a dictionary-size field of zero, which the
parser clamps up to 4096. -/
def exHeaderShort : Source :=
  [SrcEvent.byte 93, SrcEvent.byte 0, SrcEvent.byte 0, SrcEvent.byte 0,
   SrcEvent.byte 0]

/-- A core that decodes nothing: it flushes no bytes and succeeds
immediately.  Used only to instantiate the abstract decoder core at a
concrete value. -/
def idleCore : Core := fun _ _ s => ([], Except.ok [], s)

/-- An LZMA2 stream decoder that decodes nothing, used only to
instantiate the abstract core at a concrete value. -/
def idleLzma2Core : Lzma2Core := fun s => ([], Except.ok (), s)

/-- An XZ stream decoder that decodes nothing, used only to instantiate
the abstract core at a concrete value. -/
def idleXzCore : XzCore := fun s => ([], Except.ok (), s)

/-! Helper lemmas about the byte-reading primitives. -/

theorem read_u8_ok_inv {input : Source} {b : Nat} {rest : Source}
    (h : read_u8 input = Except.ok (b, rest)) :
    input = SrcEvent.byte b :: rest := by
  match input with
  | [] => simp [read_u8] at h
  | SrcEvent.byte b' :: r =>
    simp only [read_u8, Except.ok.injEq, Prod.mk.injEq] at h
    simp [h.1, h.2]
  | SrcEvent.ioErr :: r => simp [read_u8] at h

theorem read_bytes_ok_drop :
    ∀ (n : Nat) (input : Source) (bs : List Nat) (rest : Source),
      read_bytes n input = Except.ok (bs, rest) →
      rest = input.drop n ∧ input.length = rest.length + n := by
  intro n
  induction n with
  | zero =>
    intro input bs rest h
    simp only [read_bytes, Except.ok.injEq, Prod.mk.injEq] at h
    simp [h.2]
  | succ m ih =>
    intro input bs rest h
    match input with
    | [] => simp [read_bytes] at h
    | SrcEvent.ioErr :: r => simp [read_bytes] at h
    | SrcEvent.byte b :: r =>
      rw [read_bytes] at h
      rcases h' : read_bytes m r with e | ⟨bs', rest'⟩ <;> rw [h'] at h
      · simp at h
      · simp only [Except.ok.injEq, Prod.mk.injEq] at h
        rcases h with ⟨-, hrest⟩
        rcases ih r bs' rest' h' with ⟨hdrop, hlen⟩
        subst hrest
        constructor
        · simpa using hdrop
        · simp only [List.length_cons]
          omega

theorem read_u32_le_ok_drop {input : Source} {v : Nat} {rest : Source}
    (h : read_u32_le input = Except.ok (v, rest)) :
    rest = input.drop 4 ∧ input.length = rest.length + 4 := by
  rw [read_u32_le] at h
  rcases h' : read_bytes 4 input with e | ⟨bs, rest'⟩ <;> rw [h'] at h
  · simp at h
  · simp only [Except.ok.injEq, Prod.mk.injEq] at h
    rcases read_bytes_ok_drop 4 input bs rest' h' with ⟨hdrop, hlen⟩
    exact ⟨h.2 ▸ hdrop, h.2 ▸ hlen⟩

theorem read_u64_le_ok_drop {input : Source} {v : Nat} {rest : Source}
    (h : read_u64_le input = Except.ok (v, rest)) :
    rest = input.drop 8 ∧ input.length = rest.length + 8 := by
  rw [read_u64_le] at h
  rcases h' : read_bytes 8 input with e | ⟨bs, rest'⟩ <;> rw [h'] at h
  · simp at h
  · simp only [Except.ok.injEq, Prod.mk.injEq] at h
    rcases read_bytes_ok_drop 8 input bs rest' h' with ⟨hdrop, hlen⟩
    exact ⟨h.2 ▸ hdrop, h.2 ▸ hlen⟩

/-- Inversion of a successful read_header run: the three reads that took
place, the property-field guard, and the parsed fields. -/
theorem read_header_ok_inv {input : Source} {options : Options}
    {p : LzmaParams} {rest : Source}
    (h : read_header input options = Except.ok (p, rest)) :
    ∃ props r1 d r2,
      read_u8 input = Except.ok (props, r1) ∧ props < 225 ∧
      read_u32_le r1 = Except.ok (d, r2) ∧
      p.lc = props % 9 ∧ p.lp = props / 9 % 5 ∧ p.pb = props / 9 / 5 ∧
      p.dict_size = (if d < 4096 then 4096 else d) ∧
      ((options.unpacked_size = UnpackedSize.ReadFromHeader ∧
        ∃ v, read_u64_le r2 = Except.ok (v, rest) ∧
          p.unpacked_size = (if v = 0xFFFFFFFFFFFFFFFF then none else some v)) ∨
       (∃ x, options.unpacked_size = UnpackedSize.ReadHeaderButUseProvided x ∧
        (∃ v, read_u64_le r2 = Except.ok (v, rest)) ∧ p.unpacked_size = x) ∨
       (∃ x, options.unpacked_size = UnpackedSize.UseProvided x ∧
        rest = r2 ∧ p.unpacked_size = x)) := by
  rw [read_header] at h
  rcases h8 : read_u8 input with e | ⟨props, r1⟩ <;> rw [h8] at h <;> simp only at h
  · exact absurd h (by simp)
  · by_cases hp : 225 ≤ props
    · rw [if_pos hp] at h
      exact absurd h (by simp)
    · rw [if_neg hp] at h
      rcases h32 : read_u32_le r1 with e | ⟨d, r2⟩ <;>
        rw [h32] at h <;> simp only at h
      · exact absurd h (by simp)
      · rcases hu : options.unpacked_size with _ | x | x <;>
          rw [hu] at h <;> simp only at h
        · rcases h64 : read_u64_le r2 with e | ⟨v, r3⟩ <;>
            rw [h64] at h <;> simp only at h
          · exact absurd h (by simp)
          · simp only [Except.ok.injEq, Prod.mk.injEq] at h
            rcases h with ⟨hp', hrest⟩
            subst hp'
            subst hrest
            exact ⟨props, r1, d, r2, rfl, Nat.not_le.mp hp, h32, rfl, rfl, rfl,
              rfl, Or.inl ⟨rfl, v, h64, rfl⟩⟩
        · rcases h64 : read_u64_le r2 with e | ⟨v, r3⟩ <;>
            rw [h64] at h <;> simp only at h
          · exact absurd h (by simp)
          · simp only [Except.ok.injEq, Prod.mk.injEq] at h
            rcases h with ⟨hp', hrest⟩
            subst hp'
            subst hrest
            exact ⟨props, r1, d, r2, rfl, Nat.not_le.mp hp, h32, rfl, rfl, rfl,
              rfl, Or.inr (Or.inl ⟨x, rfl, ⟨v, h64⟩, rfl⟩)⟩
        · simp only [Except.ok.injEq, Prod.mk.injEq] at h
          rcases h with ⟨hp', hrest⟩
          subst hp'
          subst hrest
          exact ⟨props, r1, d, r2, rfl, Nat.not_le.mp hp, h32, rfl, rfl, rfl,
            rfl, Or.inr (Or.inr ⟨x, rfl, rfl, rfl⟩)⟩

/-- Claim C1: for every properties byte read by read_header, a byte of at
least 225 yields the invalid-properties LzmaError, and a byte below 225
parses to lc = props mod 9, lp = (props div 9) mod 5, pb = props div 45,
so that lc is at most 8 and lp and pb are at most 4. -/
theorem C1_read_header_properties (input : Source) (options : Options)
    (props : Nat) (r1 : Source)
    (h8 : read_u8 input = Except.ok (props, r1)) :
    (225 ≤ props →
      read_header input options =
        Except.error (Error.LzmaError
          ("LZMA header invalid properties: " ++ toString props ++ " must be < 225"))) ∧
    (props < 225 →
      ∀ p rest, read_header input options = Except.ok (p, rest) →
        p.lc = props % 9 ∧ p.lp = props / 9 % 5 ∧ p.pb = props / 45 ∧
        p.lc ≤ 8 ∧ p.lp ≤ 4 ∧ p.pb ≤ 4) := by
  constructor
  · intro hge
    rw [read_header, h8]
    simp only
    rw [if_pos hge]
  · intro hlt p rest hok
    rw [read_header, h8] at hok
    simp only at hok
    rw [if_neg (Nat.not_le.mpr hlt)] at hok
    rcases h32 : read_u32_le r1 with e | ⟨d, r2⟩ <;>
      rw [h32] at hok <;> simp only at hok
    · exact absurd hok (by simp)
    · rcases hu : options.unpacked_size with _ | x | x <;>
        rw [hu] at hok <;> simp only at hok
      · rcases h64 : read_u64_le r2 with e | ⟨v, r3⟩ <;>
          rw [h64] at hok <;> simp only at hok
        · exact absurd hok (by simp)
        · simp only [Except.ok.injEq, Prod.mk.injEq] at hok
          rcases hok with ⟨hp, -⟩
          subst hp
          refine ⟨rfl, rfl, ?_, ?_, ?_, ?_⟩
          · show props / 9 / 5 = props / 45
            omega
          · show props % 9 ≤ 8
            omega
          · show props / 9 % 5 ≤ 4
            omega
          · show props / 9 / 5 ≤ 4
            omega
      · rcases h64 : read_u64_le r2 with e | ⟨v, r3⟩ <;>
          rw [h64] at hok <;> simp only at hok
        · exact absurd hok (by simp)
        · simp only [Except.ok.injEq, Prod.mk.injEq] at hok
          rcases hok with ⟨hp, -⟩
          subst hp
          refine ⟨rfl, rfl, ?_, ?_, ?_, ?_⟩
          · show props / 9 / 5 = props / 45
            omega
          · show props % 9 ≤ 8
            omega
          · show props / 9 % 5 ≤ 4
            omega
          · show props / 9 / 5 ≤ 4
            omega
      · simp only [Except.ok.injEq, Prod.mk.injEq] at hok
        rcases hok with ⟨hp, -⟩
        subst hp
        refine ⟨rfl, rfl, ?_, ?_, ?_, ?_⟩
        · show props / 9 / 5 = props / 45
          omega
        · show props % 9 ≤ 8
          omega
        · show props / 9 % 5 ≤ 4
          omega
        · show props / 9 / 5 ≤ 4
          omega

/-- Claim C2: for every successfully parsed raw-LZMA header, dict_size
equals the 32-bit little-endian dictionary-size field when that field is
at least 4096 and equals 4096 when it is smaller, and every LzmaParams
produced by read_header has dict_size at least 4096. -/
theorem C2_dict_size_clamp (input : Source) (options : Options) :
    (∀ props r1 d r2 p rest,
      read_u8 input = Except.ok (props, r1) →
      read_u32_le r1 = Except.ok (d, r2) →
      read_header input options = Except.ok (p, rest) →
      (4096 ≤ d → p.dict_size = d) ∧ (d < 4096 → p.dict_size = 4096)) ∧
    (∀ p rest, read_header input options = Except.ok (p, rest) →
      4096 ≤ p.dict_size) := by
  constructor
  · intro props r1 d r2 p rest h8 h32 hok
    rcases read_header_ok_inv hok with
      ⟨props', r1', d', r2', h8', -, h32', -, -, -, hdict, -⟩
    rw [h8] at h8'
    simp only [Except.ok.injEq, Prod.mk.injEq] at h8'
    rcases h8' with ⟨-, hr1⟩
    subst hr1
    rw [h32] at h32'
    simp only [Except.ok.injEq, Prod.mk.injEq] at h32'
    rcases h32' with ⟨hd, -⟩
    subst hd
    constructor
    · intro hge
      rw [hdict, if_neg (Nat.not_lt.mpr hge)]
    · intro hlt
      rw [hdict, if_pos hlt]
  · intro p rest hok
    rcases read_header_ok_inv hok with
      ⟨props, r1, d, r2, -, -, -, -, -, -, hdict, -⟩
    rw [hdict]
    split <;> omega

/-- Claim C3: with unpacked_size read from the header, the parsed
unpacked_size is none exactly when the 64-bit little-endian field is
all-ones, and is the field's value in every other case. -/
theorem C3_unpacked_size_sentinel (input : Source) (options : Options)
    (hopt : options.unpacked_size = UnpackedSize.ReadFromHeader)
    (p : LzmaParams) (rest : Source)
    (hok : read_header input options = Except.ok (p, rest)) :
    ∃ props r1 d r2 v,
      read_u8 input = Except.ok (props, r1) ∧
      read_u32_le r1 = Except.ok (d, r2) ∧
      read_u64_le r2 = Except.ok (v, rest) ∧
      (p.unpacked_size = none ↔ v = 0xFFFFFFFFFFFFFFFF) ∧
      (v ≠ 0xFFFFFFFFFFFFFFFF → p.unpacked_size = some v) := by
  rcases read_header_ok_inv hok with
    ⟨props, r1, d, r2, h8, -, h32, -, -, -, -, hcase⟩
  rcases hcase with ⟨-, v, h64, hus⟩ | ⟨x, hx, -, -⟩ | ⟨x, hx, -, -⟩
  · refine ⟨props, r1, d, r2, v, h8, h32, h64, ?_, ?_⟩
    · constructor
      · intro hnone
        by_contra hne
        rw [hus, if_neg hne] at hnone
        exact absurd hnone (by simp)
      · intro hv
        rw [hus, if_pos hv]
    · intro hne
      rw [hus, if_neg hne]
  · rw [hopt] at hx
    exact absurd hx (by simp)
  · rw [hopt] at hx
    exact absurd hx (by simp)

/-- Claim C9: with unpacked_size read from the header but overridden,
read_header still consumes the 8-byte unpacked-size field, and the
parsed unpacked_size equals the caller-supplied value whatever the field
holds. -/
theorem C9_override_still_reads_field (input : Source) (options : Options)
    (x : Option Nat)
    (hopt : options.unpacked_size = UnpackedSize.ReadHeaderButUseProvided x)
    (p : LzmaParams) (rest : Source)
    (hok : read_header input options = Except.ok (p, rest)) :
    p.unpacked_size = x ∧
    ∃ props r1 d r2 v,
      read_u8 input = Except.ok (props, r1) ∧
      read_u32_le r1 = Except.ok (d, r2) ∧
      read_u64_le r2 = Except.ok (v, rest) := by
  rcases read_header_ok_inv hok with
    ⟨props, r1, d, r2, h8, -, h32, -, -, -, -, hcase⟩
  rcases hcase with ⟨hx, -, -⟩ | ⟨x', hx, ⟨v, h64⟩, hus⟩ | ⟨x', hx, -, -⟩
  · rw [hopt] at hx
    exact absurd hx.symm (by simp)
  · rw [hopt] at hx
    simp only [UnpackedSize.ReadHeaderButUseProvided.injEq] at hx
    subst hx
    exact ⟨hus, props, r1, d, r2, v, h8, h32, h64⟩
  · rw [hopt] at hx
    exact absurd hx (by simp)

/-- Claim C10: a successful read_header consumes exactly 13 bytes of
input when options.unpacked_size is ReadFromHeader or
ReadHeaderButUseProvided, and exactly 5 bytes when it is UseProvided, so
the remaining input is the original input with that prefix dropped. -/
theorem C10_header_consumption (input : Source) (options : Options)
    (p : LzmaParams) (rest : Source)
    (hok : read_header input options = Except.ok (p, rest)) :
    ((options.unpacked_size = UnpackedSize.ReadFromHeader ∨
      (∃ x, options.unpacked_size = UnpackedSize.ReadHeaderButUseProvided x)) →
      rest = input.drop 13 ∧ input.length = rest.length + 13) ∧
    ((∃ x, options.unpacked_size = UnpackedSize.UseProvided x) →
      rest = input.drop 5 ∧ input.length = rest.length + 5) := by
  rcases read_header_ok_inv hok with
    ⟨props, r1, d, r2, h8, -, h32, -, -, -, -, hcase⟩
  have h1 : input = SrcEvent.byte props :: r1 := read_u8_ok_inv h8
  rcases read_u32_le_ok_drop h32 with ⟨hd32, hl32⟩
  constructor
  · intro hopt
    have h64 : ∃ v, read_u64_le r2 = Except.ok (v, rest) := by
      rcases hcase with ⟨-, v, h64, -⟩ | ⟨x, -, ⟨v, h64⟩, -⟩ | ⟨x, hx, -, -⟩
      · exact ⟨v, h64⟩
      · exact ⟨v, h64⟩
      · rcases hopt with h | ⟨y, h⟩ <;> rw [h] at hx <;> exact absurd hx (by simp)
    rcases h64 with ⟨v, h64⟩
    rcases read_u64_le_ok_drop h64 with ⟨hd64, hl64⟩
    constructor
    · rw [hd64, hd32, h1]
      simp [List.drop_drop]
    · rw [h1]
      simp only [List.length_cons]
      omega
  · intro hopt
    rcases hcase with ⟨hx, -, -⟩ | ⟨x, hx, -, -⟩ | ⟨x, hx, hrest, -⟩
    · rcases hopt with ⟨y, h⟩
      rw [h] at hx
      exact absurd hx.symm (by simp)
    · rcases hopt with ⟨y, h⟩
      rw [h] at hx
      exact absurd hx (by simp)
    · subst hrest
      constructor
      · rw [hd32, h1]
        simp [List.drop_drop]
      · rw [h1]
        simp only [List.length_cons]
        omega

/-- Claim C5, counterexample: a byte source whose very first read fails
with an input/output failure (not end of input) makes read_header report
HeaderTooShort wrapping that failure — the failure is not propagated as
IoError, contrary to the claim. -/
theorem C5_io_failure_counterexample :
    read_header [SrcEvent.ioErr] Options.default =
      Except.error (Error.HeaderTooShort IoErrorKind.other) ∧
    read_header [SrcEvent.ioErr] Options.default ≠
      Except.error (Error.IoError IoErrorKind.other) := by
  constructor
  · rfl
  · intro h
    rw [show read_header [SrcEvent.ioErr] Options.default =
        Except.error (Error.HeaderTooShort IoErrorKind.other) from rfl] at h
    simp at h

/-- Claim C5 as amended: read_header never returns IoError; it returns
HeaderTooShort wrapping the underlying failure exactly when one of the
header reads (properties byte, dictionary-size field, or — when the
options call for it — the unpacked-size field) fails, whether from end
of input or from a byte-source failure. -/
theorem C5_header_errors (input : Source) (options : Options) :
    (∀ e, read_header input options ≠ Except.error (Error.IoError e)) ∧
    (∀ e, read_header input options = Except.error (Error.HeaderTooShort e) ↔
      (read_u8 input = Except.error e ∨
       (∃ props r1, read_u8 input = Except.ok (props, r1) ∧ props < 225 ∧
         read_u32_le r1 = Except.error e) ∨
       (∃ props r1 d r2, read_u8 input = Except.ok (props, r1) ∧ props < 225 ∧
         read_u32_le r1 = Except.ok (d, r2) ∧
         (options.unpacked_size = UnpackedSize.ReadFromHeader ∨
          ∃ x, options.unpacked_size = UnpackedSize.ReadHeaderButUseProvided x) ∧
         read_u64_le r2 = Except.error e))) := by
  constructor
  · intro e h
    rw [read_header] at h
    rcases h8 : read_u8 input with e' | ⟨props, r1⟩ <;>
      rw [h8] at h <;> simp only at h
    · exact absurd h (by simp)
    · by_cases hp : 225 ≤ props
      · rw [if_pos hp] at h
        exact absurd h (by simp)
      · rw [if_neg hp] at h
        rcases h32 : read_u32_le r1 with e' | ⟨d, r2⟩ <;>
          rw [h32] at h <;> simp only at h
        · exact absurd h (by simp)
        · rcases hu : options.unpacked_size with _ | x | x <;>
            rw [hu] at h <;> simp only at h
          · rcases h64 : read_u64_le r2 with e' | ⟨v, r3⟩ <;>
              rw [h64] at h <;> simp only at h <;> exact absurd h (by simp)
          · rcases h64 : read_u64_le r2 with e' | ⟨v, r3⟩ <;>
              rw [h64] at h <;> simp only at h <;> exact absurd h (by simp)
          · exact absurd h (by simp)
  · intro e
    constructor
    · intro h
      rw [read_header] at h
      rcases h8 : read_u8 input with e' | ⟨props, r1⟩ <;>
        rw [h8] at h <;> simp only at h
      · simp only [Except.error.injEq, Error.HeaderTooShort.injEq] at h
        subst h
        exact Or.inl rfl
      · by_cases hp : 225 ≤ props
        · rw [if_pos hp] at h
          exact absurd h (by simp)
        · rw [if_neg hp] at h
          rcases h32 : read_u32_le r1 with e' | ⟨d, r2⟩ <;>
            rw [h32] at h <;> simp only at h
          · simp only [Except.error.injEq, Error.HeaderTooShort.injEq] at h
            subst h
            exact Or.inr (Or.inl ⟨props, r1, rfl, Nat.not_le.mp hp, h32⟩)
          · rcases hu : options.unpacked_size with _ | x | x <;>
              rw [hu] at h <;> simp only at h
            · rcases h64 : read_u64_le r2 with e' | ⟨v, r3⟩ <;>
                rw [h64] at h <;> simp only at h
              · simp only [Except.error.injEq, Error.HeaderTooShort.injEq] at h
                subst h
                exact Or.inr (Or.inr ⟨props, r1, d, r2, rfl, Nat.not_le.mp hp,
                  h32, Or.inl rfl, h64⟩)
              · exact absurd h (by simp)
            · rcases h64 : read_u64_le r2 with e' | ⟨v, r3⟩ <;>
                rw [h64] at h <;> simp only at h
              · simp only [Except.error.injEq, Error.HeaderTooShort.injEq] at h
                subst h
                exact Or.inr (Or.inr ⟨props, r1, d, r2, rfl, Nat.not_le.mp hp,
                  h32, Or.inr ⟨x, rfl⟩, h64⟩)
              · exact absurd h (by simp)
            · exact absurd h (by simp)
    · intro h
      rcases h with h8 | ⟨props, r1, h8, hlt, h32⟩ |
        ⟨props, r1, d, r2, h8, hlt, h32, hu, h64⟩
      · rw [read_header, h8]
      · rw [read_header, h8]
        simp only
        rw [if_neg (Nat.not_le.mpr hlt), h32]
      · rcases hu with hu | ⟨x, hu⟩
        · rw [read_header, h8]
          simp only
          rw [if_neg (Nat.not_le.mpr hlt), h32]
          simp only
          rw [hu]
          simp only
          rw [h64]
        · rw [read_header, h8]
          simp only
          rw [if_neg (Nat.not_le.mpr hlt), h32]
          simp only
          rw [hu]
          simp only
          rw [h64]

/-- The decoder run only ever appends to the sink. -/
theorem runDecoder_sink_appends (core : Core) (params : LzmaParams)
    (input : Source) (sink : List Nat) :
    ∃ t, (runDecoder core params input sink).2.1 = sink ++ t := by
  rw [runDecoder]
  rcases hr : rangeDecoderNew input with e | ⟨rc, rest⟩ <;> simp only
  · exact ⟨[], by simp⟩
  · rcases hc : core params rc rest with ⟨flushed, st, rest'⟩
    rcases st with e | fb <;> simp only
    · exact ⟨flushed, rfl⟩
    · exact ⟨flushed ++ fb, by simp⟩

/-- The parameterized decompression entry point only ever appends to the
sink. -/
theorem with_params_sink_appends (core : Core) (options : Options)
    (params : LzmaParams) (input : Source) (sink : List Nat) :
    ∃ t, (lzma_decompress_with_options_with_lzma_params core options params
            input sink).2.1 = sink ++ t := by
  rw [lzma_decompress_with_options_with_lzma_params]
  rcases hm : options.memlimit with _ | m <;> simp only
  · rw [new_circular]
    exact runDecoder_sink_appends core params input sink
  · rw [new_circular_with_memlimit]
    by_cases h : m < params.dict_size
    · rw [if_pos h]
      exact ⟨[], by simp⟩
    · rw [if_neg h]
      exact runDecoder_sink_appends core params input sink

/-- Claim C4: with a memory limit smaller than the parsed dictionary
size, decompression returns the memory-limit error with the sink
untouched and the input not read past the header; with no memory limit,
circular-buffer construction cannot fail, so no memory-limit rejection
takes place and decompression proceeds straight to the decoder run. -/
theorem C4_memlimit_honored (core : Core) (options : Options)
    (params : LzmaParams) (input : Source) (sink : List Nat) :
    (∀ m, options.memlimit = some m → m < params.dict_size →
      lzma_decompress_with_options_with_lzma_params core options params input sink =
        (Except.error (Error.LzmaError "memory limit exceeded"), sink, input)) ∧
    (options.memlimit = none →
      new_circular params = Except.ok () ∧
      lzma_decompress_with_options_with_lzma_params core options params input sink =
        runDecoder core params input sink) ∧
    (∀ m p rest, options.memlimit = some m →
      read_header input options = Except.ok (p, rest) →
      m < p.dict_size →
      lzma_decompress_with_options core options input sink =
        (Except.error (Error.LzmaError "memory limit exceeded"), sink, rest)) := by
  refine ⟨?_, ?_, ?_⟩
  · intro m hm hlt
    rw [lzma_decompress_with_options_with_lzma_params, hm]
    simp only [new_circular_with_memlimit, if_pos hlt]
  · intro hn
    refine ⟨rfl, ?_⟩
    rw [lzma_decompress_with_options_with_lzma_params, hn]
    simp only [new_circular]
  · intro m p rest hm hok hlt
    rw [lzma_decompress_with_options, hok]
    simp only
    rw [lzma_decompress_with_options_with_lzma_params, hm]
    simp only [new_circular_with_memlimit, if_pos hlt]

/-- Claim C6: decompression never rolls back or truncates the sink —
whatever the outcome (success or any error, including failures after
bytes were flushed), the final sink is the original sink with some
suffix appended, so already-flushed bytes remain in place. -/
theorem C6_no_sink_rollback (core : Core) (options : Options)
    (params : LzmaParams) (input : Source) (sink : List Nat) :
    (∃ t, (lzma_decompress_with_options core options input sink).2.1 = sink ++ t) ∧
    (∃ t, (lzma_decompress_with_options_with_lzma_params core options params
            input sink).2.1 = sink ++ t) := by
  constructor
  · rw [lzma_decompress_with_options]
    rcases hh : read_header input options with e | ⟨params', rest⟩ <;> simp only
    · exact ⟨[], by simp⟩
    · exact with_params_sink_appends core options params' rest sink
  · exact with_params_sink_appends core options params input sink

/-- Claim C7: decompression is deterministic — two runs of the same
operation (raw LZMA, LZMA2, or XZ) on equal inputs with equal options
and equal initial sinks give equal results and equal sink contents; the
embedded operations carry no hidden state across calls. -/
theorem C7_deterministic (core : Core) (core2 : Lzma2Core) (corex : XzCore)
    (o1 o2 : Options) (i1 i2 : Source) (s1 s2 : List Nat)
    (hi : i1 = i2) (ho : o1 = o2) (hs : s1 = s2) :
    lzma_decompress_with_options core o1 i1 s1 =
      lzma_decompress_with_options core o2 i2 s2 ∧
    lzma2_decompress core2 i1 s1 = lzma2_decompress core2 i2 s2 ∧
    xz_decompress corex i1 s1 = xz_decompress corex i2 s2 := by
  subst hi
  subst ho
  subst hs
  exact ⟨rfl, rfl, rfl⟩

/-- Claim C8, counterexample: the LZMA2 decompression entry point of
lib.rs takes no options record, so — viewed as a family over options —
no choice of options values can ever change its behaviour, against the
claim that every decompression operation accepts behaviour-affecting
options. -/
theorem C8_no_options_counterexample :
    ¬ ∃ (core : Lzma2Core) (input : Source) (sink : List Nat),
        OptionsSensitive (fun _ : Options => lzma2_decompress core input sink) := by
  rintro ⟨core, input, sink, o1, o2, hne⟩
  exact hne rfl

/-- Claim C8 as amended: raw LZMA decompression accepts an options
record with fields unpacked_size, memlimit and allow_incomplete whose
values affect its behaviour, while the LZMA2 and XZ entry points take no
options record at all, so options cannot affect them. -/
theorem C8_options_only_for_lzma (core : Core) (core2 : Lzma2Core)
    (corex : XzCore) :
    OptionsSensitive (fun o => lzma_decompress_with_options core o exHeaderShort []) ∧
    (∀ input sink,
      ¬ OptionsSensitive (fun _ : Options => lzma2_decompress core2 input sink)) ∧
    (∀ input sink,
      ¬ OptionsSensitive (fun _ : Options => xz_decompress corex input sink)) := by
  refine ⟨?_, ?_, ?_⟩
  · refine ⟨{ unpacked_size := UnpackedSize.UseProvided none, memlimit := some 0,
              allow_incomplete := false },
            { unpacked_size := UnpackedSize.UseProvided none, memlimit := none,
              allow_incomplete := false }, ?_⟩
    intro h
    have h1 : lzma_decompress_with_options core
        { unpacked_size := UnpackedSize.UseProvided none, memlimit := some 0,
          allow_incomplete := false } exHeaderShort [] =
        (Except.error (Error.LzmaError "memory limit exceeded"), [], []) := by
      rw [lzma_decompress_with_options]
      rw [show read_header exHeaderShort
            { unpacked_size := UnpackedSize.UseProvided none, memlimit := some 0,
              allow_incomplete := false } =
          Except.ok ({ lc := 3, lp := 0, pb := 2, dict_size := 4096,
                       unpacked_size := none }, []) from rfl]
      simp only
      rw [lzma_decompress_with_options_with_lzma_params]
      simp only [new_circular_with_memlimit]
      rw [if_pos (by decide : (0 : Nat) < LzmaParams.dict_size
            { lc := 3, lp := 0, pb := 2, dict_size := 4096, unpacked_size := none })]
    have h2 : lzma_decompress_with_options core
        { unpacked_size := UnpackedSize.UseProvided none, memlimit := none,
          allow_incomplete := false } exHeaderShort [] =
        (Except.error (Error.LzmaError
           "LZMA stream too short: unexpected end of stream"), [], []) := by
      rw [lzma_decompress_with_options]
      rw [show read_header exHeaderShort
            { unpacked_size := UnpackedSize.UseProvided none, memlimit := none,
              allow_incomplete := false } =
          Except.ok ({ lc := 3, lp := 0, pb := 2, dict_size := 4096,
                       unpacked_size := none }, []) from rfl]
      simp only
      rw [lzma_decompress_with_options_with_lzma_params]
      simp only [new_circular]
      rw [runDecoder]
      rw [show rangeDecoderNew ([] : Source) =
          Except.error "unexpected end of stream" from rfl]
      rfl
    simp only at h
    rw [h1, h2] at h
    simp at h
  · intro input sink ⟨o1, o2, hne⟩
    exact hne rfl
  · intro input sink ⟨o1, o2, hne⟩
    exact hne rfl

/-- Witness for claim C1 at the concrete header exHeaderA (properties
byte 93). -/
theorem C1_read_header_properties_witness :
    paramsA.lc = 93 % 9 ∧ paramsA.lp = 93 / 9 % 5 ∧ paramsA.pb = 93 / 45 ∧
    paramsA.lc ≤ 8 ∧ paramsA.lp ≤ 4 ∧ paramsA.pb ≤ 4 :=
  (C1_read_header_properties exHeaderA Options.default 93 (exHeaderA.drop 1)
    rfl).2 (by decide) paramsA [] rfl

/-- Witness for claim C2 at the concrete header exHeaderA (dictionary
field 0x00100000, above the clamp). -/
theorem C2_dict_size_clamp_witness : paramsA.dict_size = 1048576 :=
  ((C2_dict_size_clamp exHeaderA Options.default).1 93 (exHeaderA.drop 1)
    1048576 (exHeaderA.drop 5) paramsA [] rfl rfl rfl).1 (by decide)

/-- Witness for claim C3 at the concrete header exHeaderA (all-ones
unpacked-size field). -/
theorem C3_unpacked_size_sentinel_witness :
    ∃ props r1 d r2 v,
      read_u8 exHeaderA = Except.ok (props, r1) ∧
      read_u32_le r1 = Except.ok (d, r2) ∧
      read_u64_le r2 = Except.ok (v, ([] : Source)) ∧
      (paramsA.unpacked_size = none ↔ v = 0xFFFFFFFFFFFFFFFF) ∧
      (v ≠ 0xFFFFFFFFFFFFFFFF → paramsA.unpacked_size = some v) :=
  C3_unpacked_size_sentinel exHeaderA Options.default rfl paramsA [] rfl

/-- Witness for claim C4 at a concrete memory limit of zero against
paramsA. -/
theorem C4_memlimit_honored_witness :
    lzma_decompress_with_options_with_lzma_params idleCore
      { unpacked_size := UnpackedSize.UseProvided none, memlimit := some 0,
        allow_incomplete := false } paramsA [] [] =
      (Except.error (Error.LzmaError "memory limit exceeded"), [], []) :=
  (C4_memlimit_honored idleCore
    { unpacked_size := UnpackedSize.UseProvided none, memlimit := some 0,
      allow_incomplete := false } paramsA [] []).1 0 rfl (by decide)

/-- Witness for the amended claim C5 at the empty input. -/
theorem C5_header_errors_witness :
    read_header [] Options.default =
      Except.error (Error.HeaderTooShort IoErrorKind.unexpectedEof) :=
  ((C5_header_errors [] Options.default).2 IoErrorKind.unexpectedEof).mpr
    (Or.inl rfl)

/-- Witness for claim C7 at concrete cores, input and options. -/
theorem C7_deterministic_witness :
    lzma_decompress_with_options idleCore Options.default exHeaderA [] =
      lzma_decompress_with_options idleCore Options.default exHeaderA [] ∧
    lzma2_decompress idleLzma2Core exHeaderA [] =
      lzma2_decompress idleLzma2Core exHeaderA [] ∧
    xz_decompress idleXzCore exHeaderA [] =
      xz_decompress idleXzCore exHeaderA [] :=
  C7_deterministic idleCore idleLzma2Core idleXzCore Options.default
    Options.default exHeaderA exHeaderA [] [] rfl rfl rfl

/-- Witness for the amended claim C8 at concrete cores. -/
theorem C8_options_only_for_lzma_witness :
    OptionsSensitive
      (fun o => lzma_decompress_with_options idleCore o exHeaderShort []) :=
  (C8_options_only_for_lzma idleCore idleLzma2Core idleXzCore).1

/-- Witness for claim C9 at the concrete header exHeaderA with the
caller-supplied override of 6. -/
theorem C9_override_still_reads_field_witness :
    paramsB.unpacked_size = some 6 ∧
    ∃ props r1 d r2 v,
      read_u8 exHeaderA = Except.ok (props, r1) ∧
      read_u32_le r1 = Except.ok (d, r2) ∧
      read_u64_le r2 = Except.ok (v, ([] : Source)) :=
  C9_override_still_reads_field exHeaderA
    { unpacked_size := UnpackedSize.ReadHeaderButUseProvided (some 6),
      memlimit := none, allow_incomplete := false } (some 6) rfl paramsB [] rfl

/-- Witness for claim C10 at the concrete header exHeaderA: exactly 13
bytes are consumed. -/
theorem C10_header_consumption_witness :
    ([] : Source) = exHeaderA.drop 13 ∧
    exHeaderA.length = ([] : Source).length + 13 :=
  (C10_header_consumption exHeaderA Options.default paramsA [] rfl).1
    (Or.inl rfl)

end LzmaRs
